import Mathlib

/-!
Verification development for the jQuery Cartoon plugin (src/src/cartoon.js).

The file shallowly embeds the plugin's sequencing/playback engine:

* the merged settings record `s` (playback-relevant fields; the purely
  visual fields `width`, `height`, `orientation`, `offsetX`, `offsetY` are
  only read by the renderer's CSS computation and are not needed here),
* `seq2frame` (sequence position → frame number, `null` encoded as `none`),
* `step` (one advancement of the sequencer, returning the progress code
  0 = EXHAUSTED, 1 = ADVANCED, 2 = LAST, 3 = WRAPPED),
* the inner tick `X` of `play`, together with `play`, `stop`, `skipTo` and
  `getSequenceNumber`, over an explicit controller state that also models
  the one-shot timer service (`window.setTimeout` / `window.clearTimeout`)
  as a list of live handles,
* `merge_settings` and the setup-time sanity checks of `$.fn.cartoon`.

JavaScript numbers are modelled as `Int` where the code only ever deals
with integers (positions, frame numbers, sequence entries, integral
delays), and as `ℚ` in the settings-normalisation model where `1000 / fps`
produces fractions.  JavaScript `null`/`undefined` are modelled with
`Option`; JS truthiness of a number is `≠ 0`.
-/

namespace Cartoon

/-- The three playback modes, as fixed after setup validation.  (Before
validation the mode is a raw string; see `MergedSettings` below.) -/
inductive Mode where
  | movie
  | sequence
  | varsequence
deriving DecidableEq, Repr

/-- The playback-relevant fields of the merged settings object `s`.
`sequence` is `none` when the JS field is `null` (its default).
`onLastFrame` records whether a callback is configured (the callback's
body is external to the engine). -/
structure Settings where
  mode : Mode
  frameCount : Int := 0
  sequence : Option (List Int) := none
  delay : Int := 100
  loop : Bool := false
  loopDelay : Int := 0
  skipFirst : Bool := false
  onLastFrame : Bool := false
deriving DecidableEq, Repr

/-- The sequence array as a list; `s.sequence` is only dereferenced by the
code on paths where it is non-`null` (a `null` sequence in
sequence/varsequence mode is rejected at setup), so the `[]` default is
never semantically relevant in the theorems below, which carry the
corresponding hypotheses. -/
def Settings.seqList (s : Settings) : List Int := s.sequence.getD []

/-- JavaScript array indexing `l[i]`: `undefined` (here `none`) when out of
range.  The code only indexes with non-negative `i`, but we model the
general case. -/
def jsIndex (l : List Int) (i : Int) : Option Int :=
  if i < 0 then none else l.get? i.toNat

/-- Number of (frame, delay) pairs of a varsequence array:
`Math.floor((s.sequence.length + 1) / 2)` (a dangling trailing frame
without a delay counts as a pair). -/
def varseqLen (l : List Int) : Nat := (l.length + 1) / 2

/-- `seq2frame(seqno)`: maps a sequence number to a frame number according
to the playback mode.  Negative positions are first clamped to 0; a
position at or above the mode's upper bound yields `null` (`none`). -/
def seq2frame (s : Settings) (seqno : Int) : Option Int :=
  -- sanitize for lower bound
  let seqno := if seqno < 0 then 0 else seqno
  match s.mode with
  | .movie =>
      -- in movie mode, the frameno equals the seqno
      if seqno ≥ s.frameCount then none else some seqno
  | .sequence =>
      if seqno ≥ (s.seqList.length : Int) then none else jsIndex s.seqList seqno
  | .varsequence =>
      if seqno ≥ (varseqLen s.seqList : Int) then none else jsIndex s.seqList (2 * seqno)

/-- The sequence length `seqlen` as computed by the switch at the top of
`step()`. -/
def seqlen (s : Settings) : Int :=
  match s.mode with
  | .movie => s.frameCount
  | .sequence => (s.seqList.length : Int)
  | .varsequence => (varseqLen s.seqList : Int)

/-- The candidate next sequence number computed by `step()` before the
range adjustment: from `null` it is `skipFirst ? 1 : 0`, otherwise the
current number plus one. -/
def nextCandidate (s : Settings) (seqno0 : Option Int) : Int :=
  match seqno0 with
  | none => if s.skipFirst then 1 else 0
  | some n => n + 1

/-- Progress codes returned by `step()`. -/
def EXHAUSTED : Nat := 0

/-- Progress code 1: ok, next frame in sequence displayed. -/
def ADVANCED : Nat := 1

/-- Progress code 2: like 1, and this is the last frame in the sequence. -/
def LAST : Nat := 2

/-- Progress code 3: like 1, and we just wrapped around. -/
def WRAPPED : Nat := 3

/-- The observable outcome of one `step()` call: the progress code, the
sequence number stored in `state.seqno` afterwards, the argument passed to
`display_frame` (`none` when `display_frame` was not called at all;
`some a` when it was called with `a`, where `a = none` models a `null`
frame number), and whether the `onLastFrame` callback was invoked. -/
structure StepResult where
  progress : Nat
  seqno : Option Int
  displayArg : Option (Option Int)
  callbackInvoked : Bool
deriving DecidableEq, Repr

/-- `step()`: advances the animation by one step.  Mirrors the source:
compute `seqlen`, compute the candidate next sequence number, adjust for
the upper range bound setting the progress code, display and commit unless
progress is 0, and invoke the last-frame callback exactly when progress
is 2 and a callback is configured. -/
def step (s : Settings) (seqno0 : Option Int) : StepResult :=
  let len := seqlen s
  let cand := nextCandidate s seqno0
  let adjusted : Int × Nat :=
    if cand ≥ len then
      -- the new seqno is beyond sequence range; wrap around if looping is enabled
      if s.loop then (0, 3) else (cand, 0)
    else if cand = len - 1 then
      -- the new seqno is the last one in the sequence
      (cand, 2)
    else
      -- just any seqno
      (cand, 1)
  let seqno := adjusted.1
  let progress := adjusted.2
  { progress := progress
    seqno := if progress ≠ 0 then some seqno else seqno0
    displayArg := if progress ≠ 0 then some (seq2frame s seqno) else none
    callbackInvoked := if progress = 2 then s.onLastFrame else false }

/-! ## Controller state and the timer service

`state.timeout` holds the handle returned by the last `window.setTimeout`
(or `null`).  The timer service itself is modelled inside the same state:
`pending` is the list of handles of currently scheduled (not yet fired,
not cancelled) callbacks and `fresh` the next handle `window.setTimeout`
will hand out.  `displayed` models the screen: the last non-`null` frame
number passed to `display_frame` (which sets the CSS background
position). -/

/-- The controller state: `_state` of the cartoon object plus the timer
service and the screen. -/
structure CState where
  seqno : Option Int
  timeout : Option Nat
  pending : List Nat
  fresh : Nat
  displayed : Option Int
deriving DecidableEq, Repr

/-- The state right after setup: `{timeout: null, seqno: null}`, no
scheduled callback, nothing displayed yet. -/
def initState : CState :=
  { seqno := none, timeout := none, pending := [], fresh := 0, displayed := none }

/-- `display_frame(frameno)`: does nothing if the frame number is `null`,
otherwise updates the screen's background position to show that frame. -/
def display_frame (st : CState) (frameno : Option Int) : CState :=
  match frameno with
  | none => st
  | some f => { st with displayed := some f }

/-- `window.setTimeout(X, d)`: registers a new one-shot callback and
returns its handle. -/
def setTimeout (st : CState) : CState × Nat :=
  ({ st with pending := st.pending ++ [st.fresh], fresh := st.fresh + 1 }, st.fresh)

/-- `window.clearTimeout(h)`: cancels the pending callback with handle
`h`. -/
def clearTimeout (st : CState) (h : Nat) : CState :=
  { st with pending := st.pending.erase h }

/-- `step()` acting on the controller state: runs the sequencer step,
performs the `display_frame` call and the `state.seqno` commit it
dictates, and reports the `StepResult`. -/
def stepState (s : Settings) (st : CState) : CState × StepResult :=
  let r := step s st.seqno
  let st :=
    match r.displayArg with
    | none => st
    | some a => display_frame st a
  ({ st with seqno := r.seqno }, r)

/-- The outcome of one invocation of the inner tick function `X` of
`play()`: the new state, the progress code `step()` returned, whether the
`onLastFrame` callback ran, and — when `window.setTimeout` was called —
the delay passed to it (`some d`; `d = none` models an `undefined` delay
read past the end of a varsequence array). -/
structure TickResult where
  st : CState
  progress : Nat
  callbackInvoked : Bool
  scheduledDelay : Option (Option Int)
deriving DecidableEq, Repr

/-- JS truthiness of a number-or-`undefined` value: `undefined`, `0` (and
`NaN`, not modelled) are falsy. -/
def truthy (v : Option Int) : Bool :=
  match v with
  | none => false
  | some n => n ≠ 0

/-- JavaScript `a || b` on number-or-`undefined` values. -/
def jsOr (a b : Option Int) : Option Int :=
  if truthy a then a else b

/-- The inner tick function `X` of `play()`: one `step()`, then a switch
on the progress code that either stops (progress 0, or 2 without loop:
`state.timeout = null`, no reschedule) or computes the next delay and
arms `window.setTimeout`, storing the handle in `state.timeout`. -/
def X (s : Settings) (st : CState) : TickResult :=
  let sr := stepState s st
  let st1 := sr.1
  let r := sr.2
  -- note: in the schedule branches, seqno was already updated by step(),
  -- and progress ≠ 0 guarantees it is non-null.
  let p : Int := st1.seqno.getD 0
  if r.progress = 0 then
    { st := { st1 with timeout := none }, progress := r.progress
      callbackInvoked := r.callbackInvoked, scheduledDelay := none }
  else if r.progress = 2 then
    if s.loop then
      let d : Option Int :=
        if s.mode = .varsequence then
          jsOr (jsIndex s.seqList (2 * p + 1))
            (jsOr (some s.loopDelay) (jsOr (some s.delay) (some 1000)))
        else
          jsOr (some s.loopDelay) (jsOr (some s.delay) (some 1000))
      let armed := setTimeout st1
      { st := { armed.1 with timeout := some armed.2 }, progress := r.progress
        callbackInvoked := r.callbackInvoked, scheduledDelay := some d }
    else
      { st := { st1 with timeout := none }, progress := r.progress
        callbackInvoked := r.callbackInvoked, scheduledDelay := none }
  else
    -- progress 1 or 3: regular timeout
    let d : Option Int :=
      if s.mode = .varsequence then jsIndex s.seqList (2 * p + 1) else some s.delay
    let armed := setTimeout st1
    { st := { armed.1 with timeout := some armed.2 }, progress := r.progress
      callbackInvoked := r.callbackInvoked, scheduledDelay := some d }

/-- `play()`: returns immediately (no-op) when `state.timeout` is
non-`null` (already playing); otherwise runs one synchronous tick `X()`. -/
def play (s : Settings) (st : CState) : CState :=
  match st.timeout with
  | some _ => st
  | none => (X s st).st

/-- `stop()`: if playing, cancels the pending callback via
`window.clearTimeout` and nulls `state.timeout`; the sequence position is
untouched. -/
def stop (st : CState) : CState :=
  match st.timeout with
  | none => st
  | some h => { clearTimeout st h with timeout := none }

/-- `skipTo(seqno)`: looks up the frame via `seq2frame`; when the result
is non-`null`, displays it and commits `seqno` as the current position;
otherwise does nothing.  The boolean is whether `onLastFrame` was invoked
(the source contains no such call — only a TODO comment). -/
def skipTo (s : Settings) (st : CState) (seqno : Int) : CState × Bool :=
  match seq2frame s seqno with
  | none => (st, false)
  | some f => ({ display_frame st (some f) with seqno := some seqno }, false)

/-- `getSequenceNumber()`: the current sequence number, `null` if the
cartoon has not yet started. -/
def getSequenceNumber (st : CState) : Option Int := st.seqno

/-! ## Settings normalisation and setup validation

`merge_settings` and the sanity checks at the end of `$.fn.cartoon` work
on the raw settings object before the mode has been validated, so here the
mode is a string and numeric fields are `ℚ` (the `fps` conversion produces
`1000 / fps`).  Only the fields the normalisation logic touches or the
sanity checks read are modelled; the remaining fields are merged by plain
overwrite and play no role here.  Non-numeric `fps`/`delay` values (which
the code coerces to `NaN` and then ignores resp. deletes, leaving the
target's `delay` unchanged — the same outcome as an absent field) are
outside this numeric model. -/

/-- A raw settings object as passed to `$.fn.cartoon` or `configure()`:
`none` marks an absent field. -/
structure RawSettings where
  mode : Option String := none
  fps : Option ℚ := none
  delay : Option ℚ := none
  frameCount : Option ℚ := none
  sequence : Option (List Int) := none
deriving DecidableEq, Repr

/-- The corresponding fields of a merged settings object (the target of
`merge_settings`). -/
structure MergedSettings where
  mode : String
  delay : ℚ
  frameCount : ℚ
  sequence : Option (List Int)
deriving DecidableEq, Repr

/-- `default_settings(screen)` restricted to the fields above:
`mode: "movie"`, `delay: 100`, `frameCount: 0`, `sequence: null`. -/
def default_settings : MergedSettings :=
  { mode := "movie", delay := 100, frameCount := 0, sequence := none }

/-- `merge_settings(target, settings)`: translate a truthy `fps` into
`delay = 1000 / fps`, clamp a truthy `delay` below 10 up to 10 (a `delay`
of `0` is falsy, so the whole adjustment block is skipped for it and the
`0` is merged as-is), normalise `"seq*"`/`"var*"` mode abbreviations, then
`$.extend` the result over the target. -/
def merge_settings (target : MergedSettings) (settings : RawSettings) : MergedSettings :=
  -- translate fps to delay
  let settings :=
    match settings.fps with
    | some f => if f ≠ 0 then { settings with delay := some (1000 / f) } else settings
    | none => settings
  -- adjust delay for minimum
  let settings :=
    match settings.delay with
    | some d => if d ≠ 0 then (if d < 10 then { settings with delay := some 10 } else settings)
                else settings
    | none => settings
  -- allow abbreviations for the mode word (two successive rewrites, as in
  -- the source: `indexOf(x) === 0` is `startsWith x` on the lower-cased word)
  let settings :=
    match settings.mode with
    | some m =>
        let m := if m.toLower.startsWith ("seq") then "sequence" else m
        let m := if m.toLower.startsWith ("var") then "varsequence" else m
        { settings with mode := some m }
    | none => settings
  -- merge with target: fields present in settings overwrite the target
  { mode := settings.mode.getD target.mode
    delay := settings.delay.getD target.delay
    frameCount := settings.frameCount.getD target.frameCount
    sequence := match settings.sequence with
      | some l => some l
      | none => target.sequence }

/-- The ways construction can abort in the sanity-check switch of
`$.fn.cartoon`.  `sequenceIsNull` models the `TypeError` thrown by
`s.sequence.length` when the sequence is `null` (absent): construction
aborts there as well, just with the host language's own error. -/
inductive SetupError where
  | frameCountNotSet
  | noSequence
  | sequenceIsNull
  | unknownMode (m : String)
deriving DecidableEq, Repr

/-- The sanity-check switch at the end of `$.fn.cartoon`: movie mode needs
a truthy `frameCount`, sequence/varsequence modes need a non-empty
`sequence`, any other mode string is rejected. -/
def sanity_checks (s : MergedSettings) : Except SetupError Unit :=
  if s.mode = "movie" then
    if s.frameCount = 0 then .error .frameCountNotSet else .ok ()
  else if s.mode = "sequence" ∨ s.mode = "varsequence" then
    match s.sequence with
    | none => .error .sequenceIsNull
    | some l => if l.length = 0 then .error .noSequence else .ok ()
  else .error (.unknownMode s.mode)

/-- `$.fn.cartoon(settings)` on a fresh element, up to the point where the
cartoon object is attached and returned: merge the supplied settings into
the defaults, then run the sanity checks; on success the (fully merged)
configuration is the one the returned cartoon object carries. -/
def cartoonSetup (raw : RawSettings) : Except SetupError MergedSettings :=
  let s := merge_settings default_settings raw
  match sanity_checks s with
  | .ok _ => .ok s
  | .error e => .error e

/-! ## Helper lemmas -/

/-- Negative sequence numbers are clamped: `seq2frame` at a negative
position agrees with `seq2frame` at 0. -/
theorem seq2frame_clamp (s : Settings) (q : Int) (hq : q < 0) :
    seq2frame s q = seq2frame s 0 := by
  unfold seq2frame
  simp [hq]

/-- `seqlen` in movie mode is the frame count. -/
theorem seqlen_movie (s : Settings) (h : s.mode = .movie) :
    seqlen s = s.frameCount := by
  simp [seqlen, h]

/-- `seqlen` in sequence mode is the array length. -/
theorem seqlen_sequence (s : Settings) (h : s.mode = .sequence) :
    seqlen s = (s.seqList.length : Int) := by
  simp [seqlen, h]

/-- `seqlen` in varsequence mode is the number of (frame, delay) pairs. -/
theorem seqlen_varsequence (s : Settings) (h : s.mode = .varsequence) :
    seqlen s = (varseqLen s.seqList : Int) := by
  simp [seqlen, h]

/-- Any position strictly below the sequence length (in particular a
negative one, thanks to the clamp) has a frame, provided the sequence
length is at least 1. -/
theorem seq2frame_some_of_lt (s : Settings) (q : Int) (hlen : 1 ≤ seqlen s)
    (hq : q < seqlen s) : ∃ f, seq2frame s q = some f := by
  cases hm : s.mode with
  | movie =>
      rw [seqlen_movie s hm] at hlen hq
      simp only [seq2frame, hm]
      rcases lt_or_le q 0 with hq0 | hq0
      · rw [if_pos hq0, if_neg (by omega : ¬((0 : Int) ≥ s.frameCount))]
        exact ⟨0, rfl⟩
      · rw [if_neg (not_lt.mpr hq0), if_neg (by omega : ¬(q ≥ s.frameCount))]
        exact ⟨q, rfl⟩
  | sequence =>
      rw [seqlen_sequence s hm] at hlen hq
      simp only [seq2frame, hm]
      rcases lt_or_le q 0 with hq0 | hq0
      · rw [if_pos hq0, if_neg (by omega : ¬((0 : Int) ≥ (s.seqList.length : Int))),
          jsIndex, if_neg (by omega : ¬((0 : Int) < 0))]
        have hlt : (0 : Int).toNat < s.seqList.length := by omega
        exact ⟨s.seqList.get ⟨(0 : Int).toNat, hlt⟩, List.get?_eq_get hlt⟩
      · rw [if_neg (not_lt.mpr hq0), if_neg (by omega : ¬(q ≥ (s.seqList.length : Int))),
          jsIndex, if_neg (not_lt.mpr hq0)]
        have hlt : q.toNat < s.seqList.length := by omega
        exact ⟨s.seqList.get ⟨q.toNat, hlt⟩, List.get?_eq_get hlt⟩
  | varsequence =>
      rw [seqlen_varsequence s hm] at hlen hq
      simp only [seq2frame, hm]
      have hvl : varseqLen s.seqList = (s.seqList.length + 1) / 2 := rfl
      rcases lt_or_le q 0 with hq0 | hq0
      · rw [if_pos hq0, if_neg (by omega : ¬((0 : Int) ≥ (varseqLen s.seqList : Int))),
          jsIndex, if_neg (by omega : ¬(2 * (0 : Int) < 0))]
        have hlt : (2 * (0 : Int)).toNat < s.seqList.length := by omega
        exact ⟨s.seqList.get ⟨(2 * (0 : Int)).toNat, hlt⟩, List.get?_eq_get hlt⟩
      · rw [if_neg (not_lt.mpr hq0), if_neg (by omega : ¬(q ≥ (varseqLen s.seqList : Int))),
          jsIndex, if_neg (by omega : ¬(2 * q < 0))]
        have hlt : (2 * q).toNat < s.seqList.length := by omega
        exact ⟨s.seqList.get ⟨(2 * q).toNat, hlt⟩, List.get?_eq_get hlt⟩

/-! ## Claims -/

/-- C1.  `step()` computes the next sequence position and the four-way
progress code exactly as specified: the candidate is `skipFirst ? 1 : 0`
from a `null` position and `current + 1` otherwise; a candidate at or past
the sequence length wraps to position 0 with code WRAPPED when `loop` is
enabled and yields EXHAUSTED with the stored position unchanged when it is
not; a candidate equal to `len - 1` is committed with code LAST, any other
in-range candidate with code ADVANCED. -/
theorem step_advance_spec (s : Settings) (p0 : Option Int) :
    (p0 = none → nextCandidate s p0 = if s.skipFirst then 1 else 0) ∧
    (∀ n, p0 = some n → nextCandidate s p0 = n + 1) ∧
    (nextCandidate s p0 ≥ seqlen s → s.loop = true →
      (step s p0).seqno = some 0 ∧ (step s p0).progress = WRAPPED) ∧
    (nextCandidate s p0 ≥ seqlen s → s.loop = false →
      (step s p0).progress = EXHAUSTED ∧ (step s p0).seqno = p0) ∧
    (nextCandidate s p0 < seqlen s → nextCandidate s p0 = seqlen s - 1 →
      (step s p0).progress = LAST ∧ (step s p0).seqno = some (nextCandidate s p0)) ∧
    (nextCandidate s p0 < seqlen s → nextCandidate s p0 ≠ seqlen s - 1 →
      (step s p0).progress = ADVANCED ∧ (step s p0).seqno = some (nextCandidate s p0)) := by
  refine ⟨?_, ?_, ?_, ?_, ?_, ?_⟩
  · intro h; subst h; rfl
  · intro n h; subst h; rfl
  · intro hge hloop
    simp [step, WRAPPED, hge, hloop]
  · intro hge hloop
    simp [step, EXHAUSTED, hge, hloop]
  · intro hlt heq
    simp [step, LAST, not_le.mpr hlt, heq]
  · intro hlt hne
    simp [step, ADVANCED, not_le.mpr hlt, hne]

/-- C1 witness: a movie with a single frame, stepped from the fresh
(`null`) position, takes the LAST branch at candidate 0. -/
theorem step_advance_spec_witness :
    nextCandidate { mode := .movie, frameCount := 1 } none <
        seqlen { mode := .movie, frameCount := 1 } ∧
    nextCandidate { mode := .movie, frameCount := 1 } none =
        seqlen { mode := .movie, frameCount := 1 } - 1 ∧
    ((step { mode := .movie, frameCount := 1 } none).progress = LAST ∧
      (step { mode := .movie, frameCount := 1 } none).seqno =
        some (nextCandidate { mode := .movie, frameCount := 1 } none)) := by
  refine ⟨by decide, by decide, ?_⟩
  exact (step_advance_spec { mode := .movie, frameCount := 1 } none).2.2.2.2.1
    (by decide) (by decide)

/-- C2 counterexample: the claim says sequence mode returns `null` for
every out-of-range position, including negative ones; but `seq2frame`
clamps negative positions to 0 first, so on the sequence `[5]` the
position `-1` yields frame 5, not `null`. -/
theorem seq2frame_negative_counterexample :
    seq2frame { mode := .sequence, sequence := some [5] } (-1) = some 5 := by
  decide

/-- C2 amended: `seq2frame` maps positions to frames per mode with a
`null` sentinel for positions at or above the mode's upper bound, but a
negative position is clamped to 0 (so it yields the frame at position 0,
not `null`): in movie mode a non-negative `p` yields `p` below
`frameCount` and `null` otherwise; in sequence mode it yields
`sequence[p]` below the sequence length and `null` otherwise; in
varsequence mode it yields `sequence[2·p]` below `⌊(|sequence|+1)/2⌋` and
`null` otherwise. -/
theorem seq2frame_mode_spec (s : Settings) (l : List Int) (hl : s.sequence = some l)
    (p : Int) :
    (p < 0 → seq2frame s p = seq2frame s 0) ∧
    (0 ≤ p → s.mode = .movie →
      seq2frame s p = if p < s.frameCount then some p else none) ∧
    (0 ≤ p → s.mode = .sequence →
      seq2frame s p = if p < (l.length : Int) then l.get? p.toNat else none) ∧
    (0 ≤ p → s.mode = .sequence → (seq2frame s p ≠ none ↔ p < (l.length : Int))) ∧
    (0 ≤ p → s.mode = .varsequence →
      seq2frame s p = if p < (varseqLen l : Int) then l.get? (2 * p).toNat else none) ∧
    (0 ≤ p → s.mode = .varsequence → (seq2frame s p ≠ none ↔ p < (varseqLen l : Int))) := by
  have hsl : s.seqList = l := by simp [Settings.seqList, hl]
  refine ⟨seq2frame_clamp s p, ?_, ?_, ?_, ?_, ?_⟩
  · intro hp hm
    simp only [seq2frame, hm, hsl]
    rw [if_neg (not_lt.mpr hp)]
    by_cases h : p < s.frameCount
    · rw [if_neg (by omega : ¬(p ≥ s.frameCount)), if_pos h]
    · rw [if_pos (by omega : p ≥ s.frameCount), if_neg h]
  · intro hp hm
    simp only [seq2frame, hm, hsl]
    rw [if_neg (not_lt.mpr hp)]
    by_cases h : p < (l.length : Int)
    · rw [if_neg (by omega : ¬(p ≥ (l.length : Int))), if_pos h, jsIndex,
        if_neg (not_lt.mpr hp)]
    · rw [if_pos (by omega : p ≥ (l.length : Int)), if_neg h]
  · intro hp hm
    simp only [seq2frame, hm, hsl]
    rw [if_neg (not_lt.mpr hp)]
    by_cases h : p < (l.length : Int)
    · rw [if_neg (by omega : ¬(p ≥ (l.length : Int)))]
      simp only [jsIndex, if_neg (not_lt.mpr hp)]
      constructor
      · intro _; exact h
      · intro _
        rw [ne_eq, List.get?_eq_none]
        omega
    · rw [if_pos (by omega : p ≥ (l.length : Int))]
      simp [h]
  · intro hp hm
    simp only [seq2frame, hm, hsl]
    rw [if_neg (not_lt.mpr hp)]
    by_cases h : p < (varseqLen l : Int)
    · rw [if_neg (by omega : ¬(p ≥ (varseqLen l : Int))), if_pos h, jsIndex,
        if_neg (by omega : ¬(2 * p < 0))]
    · rw [if_pos (by omega : p ≥ (varseqLen l : Int)), if_neg h]
  · intro hp hm
    simp only [seq2frame, hm, hsl]
    rw [if_neg (not_lt.mpr hp)]
    have hvl : varseqLen l = (l.length + 1) / 2 := rfl
    by_cases h : p < (varseqLen l : Int)
    · rw [if_neg (by omega : ¬(p ≥ (varseqLen l : Int)))]
      simp only [jsIndex, if_neg (by omega : ¬(2 * p < 0))]
      constructor
      · intro _; exact h
      · intro _
        rw [ne_eq, List.get?_eq_none]
        omega
    · rw [if_pos (by omega : p ≥ (varseqLen l : Int))]
      simp [h]

/-- C2 witness: in sequence mode on `[9, 8]`, position 1 is in range and
maps to the second sequence entry, frame 8. -/
theorem seq2frame_mode_spec_witness :
    ({ mode := .sequence, sequence := some [9, 8] } : Settings).sequence = some [9, 8] ∧
    (0 : Int) ≤ 1 ∧
    seq2frame { mode := .sequence, sequence := some [9, 8] } 1 = some 8 := by
  refine ⟨rfl, by decide, ?_⟩
  have h := (seq2frame_mode_spec { mode := .sequence, sequence := some [9, 8] } [9, 8]
    rfl 1).2.2.1 (by decide) rfl
  exact h.trans (by decide)

/-- C4 counterexample: for a looping sequence of length 1 the claim
demands one `onLastFrame` invocation per pass through the terminal
position; but after the first step every subsequent step wraps
(code WRAPPED), commits position 0 — which IS the terminal position
`len - 1`, whose frame is displayed — and does not invoke the callback. -/
theorem onLastFrame_missed_on_len1_loop :
    (step { mode := .movie, frameCount := 1, loop := true, onLastFrame := true }
        (some 0)).progress = WRAPPED ∧
    (step { mode := .movie, frameCount := 1, loop := true, onLastFrame := true }
        (some 0)).seqno =
      some (seqlen { mode := .movie, frameCount := 1, loop := true, onLastFrame := true } - 1) ∧
    (step { mode := .movie, frameCount := 1, loop := true, onLastFrame := true }
        (some 0)).displayArg = some (some 0) ∧
    (step { mode := .movie, frameCount := 1, loop := true, onLastFrame := true }
        (some 0)).callbackInvoked = false := by
  decide

/-- C4 amended: the `onLastFrame` callback (when configured) is invoked by
`step()` exactly on steps whose progress code is LAST, and never on steps
returning EXHAUSTED, ADVANCED or WRAPPED — so for a looping sequence of
length 1 it fires only on the very first step, since every later pass
through the terminal position is a WRAPPED step. -/
theorem onLastFrame_iff_LAST (s : Settings) (p0 : Option Int) :
    (step s p0).callbackInvoked = true ↔
      ((step s p0).progress = LAST ∧ s.onLastFrame = true) := by
  simp only [step, LAST]
  split <;> simp_all

/-- C9.  Advancement never commits an undisplayable position: whenever
`step()` returns a nonzero progress code, the newly committed position has
a non-`null` frame under `seq2frame`, and that frame — never `null` — is
what the unchecked `display_frame(seq2frame(...))` call received.  Holds
for every configuration of sequence length at least 1 and every stored
position (`null` or any integer). -/
theorem step_display_safe (s : Settings) (p0 : Option Int) (hlen : 1 ≤ seqlen s)
    (hp : (step s p0).progress ≠ EXHAUSTED) :
    ∃ q f, (step s p0).seqno = some q ∧ seq2frame s q = some f ∧
      (step s p0).displayArg = some (some f) := by
  by_cases hge : nextCandidate s p0 ≥ seqlen s
  · by_cases hloop : s.loop
    · obtain ⟨f, hf⟩ := seq2frame_some_of_lt s 0 hlen (by omega)
      refine ⟨0, f, ?_, hf, ?_⟩ <;> simp [step, hge, hloop, hf]
    · exfalso
      apply hp
      simp [step, EXHAUSTED, hge, hloop]
  · obtain ⟨f, hf⟩ := seq2frame_some_of_lt s (nextCandidate s p0) hlen (by omega)
    by_cases heq : nextCandidate s p0 = seqlen s - 1
    · have hf2 : seq2frame s (seqlen s - 1) = some f := heq ▸ hf
      refine ⟨nextCandidate s p0, f, ?_, hf, ?_⟩ <;> simp [step, hge, heq, hf2]
    · refine ⟨nextCandidate s p0, f, ?_, hf, ?_⟩ <;> simp [step, hge, heq, hf]

/-- C9 witness: a two-frame movie stepped from the fresh position commits
position 0, whose frame 0 is displayed. -/
theorem step_display_safe_witness :
    1 ≤ seqlen { mode := .movie, frameCount := 2 } ∧
    (step { mode := .movie, frameCount := 2 } none).progress ≠ EXHAUSTED ∧
    ∃ q f, (step { mode := .movie, frameCount := 2 } none).seqno = some q ∧
      seq2frame { mode := .movie, frameCount := 2 } q = some f ∧
      (step { mode := .movie, frameCount := 2 } none).displayArg = some (some f) := by
  refine ⟨by decide, by decide, ?_⟩
  exact step_display_safe { mode := .movie, frameCount := 2 } none (by decide) (by decide)

/-- C8.  `skipTo(position)` renders the frame `seq2frame` yields and
commits the given position when that frame is non-`null`, touching nothing
else (the timer handle, the pending callbacks and the fresh-handle counter
are those of the input state, and `onLastFrame` is not invoked); when
`seq2frame` yields `null` the state is returned entirely unchanged — a
silent no-op. -/
theorem skipTo_spec (s : Settings) (st : CState) (p : Int) :
    (∀ f, seq2frame s p = some f →
      skipTo s st p = ({ st with displayed := some f, seqno := some p }, false)) ∧
    (seq2frame s p = none → skipTo s st p = (st, false)) := by
  constructor
  · intro f hf
    simp [skipTo, hf, display_frame]
  · intro hf
    simp [skipTo, hf]

/-- C8 witness: skipping a fresh two-frame movie to position 1 renders
frame 1 and commits position 1, leaving the timer state untouched. -/
theorem skipTo_spec_witness :
    seq2frame { mode := .movie, frameCount := 2 } 1 = some 1 ∧
    skipTo { mode := .movie, frameCount := 2 } initState 1 =
      ({ initState with displayed := some 1, seqno := some 1 }, false) := by
  refine ⟨by decide, ?_⟩
  exact (skipTo_spec { mode := .movie, frameCount := 2 } initState 1).1 1 (by decide)

/-- C10.  For a validly configured cartoon (sequence length at least 1)
and a negative position `n`, `skipTo(n)` renders the frame at sequence
position 0 (the lower-bound clamp inside `seq2frame`) yet commits `n`
itself, so `getSequenceNumber()` then returns the negative `n` — the
stored position can lie outside `0 .. sequenceLength - 1`. -/
theorem skipTo_negative_commits (s : Settings) (st : CState) (n : Int)
    (hn : n < 0) (hlen : 1 ≤ seqlen s) :
    ∃ f, seq2frame s 0 = some f ∧ seq2frame s n = some f ∧
      skipTo s st n = ({ st with displayed := some f, seqno := some n }, false) ∧
      getSequenceNumber (skipTo s st n).1 = some n := by
  obtain ⟨f, hf⟩ := seq2frame_some_of_lt s 0 hlen (by omega)
  have hfn : seq2frame s n = some f := (seq2frame_clamp s n hn).trans hf
  refine ⟨f, hf, hfn, ?_, ?_⟩
  · simp [skipTo, hfn, display_frame]
  · simp [skipTo, hfn, display_frame, getSequenceNumber]

/-- C10 witness: on the sequence `[4, 5]`, `skipTo(-3)` displays frame 4
(position 0) while `getSequenceNumber()` afterwards returns `-3`. -/
theorem skipTo_negative_commits_witness :
    (-3 : Int) < 0 ∧ 1 ≤ seqlen { mode := .sequence, sequence := some [4, 5] } ∧
    getSequenceNumber
        (skipTo { mode := .sequence, sequence := some [4, 5] } initState (-3)).1 =
      some (-3) ∧
    (skipTo { mode := .sequence, sequence := some [4, 5] } initState (-3)).1.displayed =
      some 4 := by
  refine ⟨by decide, by decide, ?_, by decide⟩
  obtain ⟨f, _, _, _, h4⟩ := skipTo_negative_commits
    { mode := .sequence, sequence := some [4, 5] } initState (-3) (by decide) (by decide)
  exact h4

/-- `display_frame` only touches the screen, never the position or the
timer bookkeeping. -/
theorem display_frame_fields (st : CState) (a : Option Int) :
    (display_frame st a).seqno = st.seqno ∧ (display_frame st a).timeout = st.timeout ∧
    (display_frame st a).pending = st.pending ∧ (display_frame st a).fresh = st.fresh := by
  cases a <;> simp [display_frame]

/-- The second component of `stepState` is the plain sequencer step. -/
theorem stepState_snd (s : Settings) (st : CState) :
    (stepState s st).2 = step s st.seqno := rfl

/-- `step()` leaves the timer bookkeeping alone: it only displays a frame
and commits the position. -/
theorem stepState_preserves (s : Settings) (st : CState) :
    (stepState s st).1.timeout = st.timeout ∧ (stepState s st).1.pending = st.pending ∧
    (stepState s st).1.fresh = st.fresh ∧ (stepState s st).1.seqno = (step s st.seqno).seqno := by
  unfold stepState
  cases h : (step s st.seqno).displayArg with
  | none => simp [h]
  | some a => cases a <;> simp [h, display_frame]

/-- One tick either halts the chain (`state.timeout` nulled, nothing
scheduled, pending callbacks unchanged) or arms exactly one new timeout
(the fresh handle is appended to the pending callbacks and stored in
`state.timeout`). -/
theorem X_state_chain (s : Settings) (st : CState) :
    ((X s st).st.timeout = none ∧ (X s st).st.pending = st.pending ∧
      (X s st).scheduledDelay = none) ∨
    (∃ h, (X s st).st.timeout = some h ∧ (X s st).st.pending = st.pending ++ [h] ∧
      (X s st).scheduledDelay ≠ none) := by
  obtain ⟨hto, hpe, hfr, _⟩ := stepState_preserves s st
  by_cases h0 : (step s st.seqno).progress = 0
  · left
    simp [X, stepState_snd, h0, hpe]
  · by_cases h2 : (step s st.seqno).progress = 2
    · by_cases hl : s.loop
      · right
        exact ⟨(stepState s st).1.fresh,
          by simp [X, stepState_snd, h0, h2, hl, setTimeout, hpe, hfr]⟩
      · left
        simp [X, stepState_snd, h0, h2, hl, hpe]
    · right
      exact ⟨(stepState s st).1.fresh,
        by simp [X, stepState_snd, h0, h2, setTimeout, hpe, hfr]⟩

/-- C3.  The playback loop's rescheduling delay, by progress code and
mode: after ADVANCED or WRAPPED it is `sequence[2·position + 1]` (the
delay paired with the frame just shown; `position` is the position
`step()` just committed) in varsequence mode and `config.delay` in the
other modes; after LAST with loop enabled it is the first truthy of
`sequence[2·position + 1]`, `loopDelay`, `delay`, `1000` in varsequence
mode and of `loopDelay`, `delay`, `1000` otherwise; after LAST with loop
disabled, and after EXHAUSTED, `state.timeout` is nulled and nothing is
rescheduled. -/
theorem tick_delay_spec (s : Settings) (st : CState) :
    ((step s st.seqno).progress = ADVANCED ∨ (step s st.seqno).progress = WRAPPED →
      (X s st).scheduledDelay =
        some (if s.mode = .varsequence
          then jsIndex s.seqList (2 * ((step s st.seqno).seqno.getD 0) + 1)
          else some s.delay)) ∧
    ((step s st.seqno).progress = LAST → s.loop = true →
      (X s st).scheduledDelay =
        some (if s.mode = .varsequence
          then jsOr (jsIndex s.seqList (2 * ((step s st.seqno).seqno.getD 0) + 1))
            (jsOr (some s.loopDelay) (jsOr (some s.delay) (some 1000)))
          else jsOr (some s.loopDelay) (jsOr (some s.delay) (some 1000)))) ∧
    ((step s st.seqno).progress = LAST → s.loop = false →
      (X s st).st.timeout = none ∧ (X s st).scheduledDelay = none) ∧
    ((step s st.seqno).progress = EXHAUSTED →
      (X s st).st.timeout = none ∧ (X s st).scheduledDelay = none) := by
  obtain ⟨hto, hpe, hfr, hsq⟩ := stepState_preserves s st
  refine ⟨?_, ?_, ?_, ?_⟩
  · rintro (h | h) <;>
      simp [X, stepState_snd, h, ADVANCED, WRAPPED, hsq]
  · intro h hl
    simp [X, stepState_snd, h, LAST, hl, hsq]
  · intro h hl
    simp [X, stepState_snd, h, LAST, hl]
  · intro h
    simp [X, stepState_snd, h, EXHAUSTED]

/-- C3 witness: a looping single-pair varsequence `[7]` reaches LAST on
its first tick; the paired delay is `undefined` (the array has no element
at index 1) and `loopDelay` is 0, so the chain falls through to
`delay = 100`. -/
theorem tick_delay_spec_witness :
    (step { mode := .varsequence, sequence := some [7], loop := true,
            loopDelay := 0, delay := 100 } initState.seqno).progress = LAST ∧
    ({ mode := .varsequence, sequence := some [7], loop := true,
       loopDelay := 0, delay := 100 } : Settings).loop = true ∧
    (X { mode := .varsequence, sequence := some [7], loop := true,
         loopDelay := 0, delay := 100 } initState).scheduledDelay = some (some 100) := by
  refine ⟨by decide, rfl, ?_⟩
  have h := (tick_delay_spec { mode := .varsequence, sequence := some [7], loop := true,
                               loopDelay := 0, delay := 100 } initState).2.1 (by decide) rfl
  exact h.trans (by decide)

/-- Well-formedness of the timer bookkeeping: the pending callbacks of the
timer service are exactly the one held by `state.timeout` (or none). -/
def WFtimer (st : CState) : Prop :=
  st.pending = match st.timeout with
    | some h => [h]
    | none => []

/-- C7 counterexample: the claim says `stop()` immediately followed by
`play()` results in exactly one pending scheduled callback; but when the
sequence is already exhausted (single-frame movie at position 0, no loop)
the first tick of `play()` returns EXHAUSTED and schedules nothing, so
zero callbacks remain pending. -/
theorem stop_play_zero_pending :
    WFtimer { seqno := some 0, timeout := some 0, pending := [0], fresh := 1,
              displayed := some 0 } ∧
    ({ seqno := some 0, timeout := some 0, pending := [0], fresh := 1,
       displayed := some 0 } : CState).timeout ≠ none ∧
    (play { mode := .movie, frameCount := 1 }
        (stop { seqno := some 0, timeout := some 0, pending := [0], fresh := 1,
                displayed := some 0 })).pending.length = 0 := by
  exact ⟨rfl, by decide, by decide⟩

/-- C7 amended: at most one timer chain is ever live.  `play()` is a no-op
when `state.timeout` is non-null; `stop()` cancels the pending callback
and nulls the handle; and `stop()` immediately followed by `play()` leaves
at most one pending scheduled callback — exactly one precisely when the
first tick reschedules, and zero when that tick halts playback (EXHAUSTED,
or LAST without loop). -/
theorem single_timer_chain (s : Settings) (st : CState) (hw : WFtimer st) :
    (st.timeout ≠ none → play s st = st) ∧
    ((stop st).timeout = none ∧ (stop st).pending = []) ∧
    WFtimer (play s (stop st)) ∧
    (play s (stop st)).pending.length ≤ 1 ∧
    ((X s (stop st)).scheduledDelay ≠ none → (play s (stop st)).pending.length = 1) := by
  have hstop : (stop st).timeout = none ∧ (stop st).pending = [] := by
    unfold WFtimer at hw
    cases ht : st.timeout with
    | none =>
        rw [ht] at hw
        constructor
        · simp [stop, ht]
        · simp [stop, ht, hw]
    | some h =>
        rw [ht] at hw
        constructor
        · simp [stop, ht]
        · simp [stop, ht, clearTimeout, hw]
  have hplay : play s (stop st) = (X s (stop st)).st := by
    simp [play, hstop.1]
  refine ⟨?_, hstop, ?_, ?_, ?_⟩
  · intro ht
    cases h : st.timeout with
    | none => exact absurd h ht
    | some k => simp [play, h]
  all_goals
    rcases X_state_chain s (stop st) with ⟨h1, h2, h3⟩ | ⟨k, h1, h2, h3⟩
  · unfold WFtimer
    rw [hplay, h1, h2, hstop.2]
  · unfold WFtimer
    rw [hplay, h1, h2, hstop.2]
    simp
  · rw [hplay, h2, hstop.2]
    simp
  · rw [hplay, h2, hstop.2]
    simp
  · intro hd
    exact absurd h3 (by simp [hd])
  · intro _
    rw [hplay, h2, hstop.2]
    simp

/-- C7 amended witness: from a playing well-formed state of a two-frame
movie, `stop()` then `play()` leaves exactly the one freshly armed
callback pending. -/
theorem single_timer_chain_witness :
    WFtimer { seqno := some 0, timeout := some 7, pending := [7], fresh := 8,
              displayed := some 0 } ∧
    (play { mode := .movie, frameCount := 3 }
        (stop { seqno := some 0, timeout := some 7, pending := [7], fresh := 8,
                displayed := some 0 })).pending.length = 1 := by
  refine ⟨rfl, ?_⟩
  have h := (single_timer_chain { mode := .movie, frameCount := 3 }
    { seqno := some 0, timeout := some 7, pending := [7], fresh := 8,
      displayed := some 0 } rfl).2.2.2.2
  exact h (by decide)

/-- C5.  The clamp in `merge_settings` exists — a supplied `delay` of 5 is
raised to 10, and an `fps` of 200 (i.e. `delay = 1000/200 = 5`) is
likewise clamped — but a supplied `delay` of 0 is falsy, skips the whole
adjustment block, and is merged into the configuration as-is: the stored
delay is 0 < 10, contradicting the claim (and the source's own option
documentation, "values smaller than 10 won't be accepted"). -/
theorem merge_delay_zero_bug :
    (merge_settings default_settings { delay := some 5 }).delay = 10 ∧
    (merge_settings default_settings { fps := some 200 }).delay = 10 ∧
    (merge_settings default_settings { delay := some 0 }).delay = 0 ∧
    (merge_settings default_settings { delay := some 0 }).delay < 10 := by
  refine ⟨?_, ?_, ?_, ?_⟩ <;> norm_num [merge_settings, default_settings]

/-- A merged configuration the sanity-check switch of `$.fn.cartoon`
rejects: movie mode with a falsy frame count, sequence/varsequence mode
with a `null` or empty sequence, or an unrecognized mode string. -/
def badConfig (m : MergedSettings) : Prop :=
  (m.mode = "movie" ∧ m.frameCount = 0) ∨
  ((m.mode = "sequence" ∨ m.mode = "varsequence") ∧
    (m.sequence = none ∨ m.sequence = some [])) ∨
  (m.mode ≠ "movie" ∧ m.mode ≠ "sequence" ∧ m.mode ≠ "varsequence")

/-- C6.  Setup is fail-fast: construction succeeds exactly when the merged
configuration is not rejected by the sanity checks — movie mode with a
zero (or absent, hence defaulted-to-0) `frameCount`, sequence or
varsequence mode with an empty (or absent, i.e. `null`) sequence, and any
unrecognized mode string abort construction — and on success the returned
cartoon carries exactly the fully merged configuration, never a partial
one. -/
theorem setup_failfast (raw : RawSettings) :
    ((cartoonSetup raw).isOk = true ↔
      ¬ badConfig (merge_settings default_settings raw)) ∧
    (∀ m, cartoonSetup raw = .ok m → m = merge_settings default_settings raw) := by
  constructor
  · unfold cartoonSetup badConfig sanity_checks
    by_cases h1 : (merge_settings default_settings raw).mode = "movie"
    · by_cases h2 : (merge_settings default_settings raw).frameCount = 0 <;>
        simp [h1, h2, Except.isOk, Except.toBool]
    · by_cases h2 : (merge_settings default_settings raw).mode = "sequence" ∨
        (merge_settings default_settings raw).mode = "varsequence"
      · have hs : ¬((merge_settings default_settings raw).mode = "movie") := h1
        cases hseq : (merge_settings default_settings raw).sequence with
        | none =>
            rcases h2 with h2 | h2 <;> simp [h1, h2, hseq, Except.isOk, Except.toBool]
        | some l =>
            cases l with
            | nil => rcases h2 with h2 | h2 <;> simp [h1, h2, hseq, Except.isOk, Except.toBool]
            | cons a t => rcases h2 with h2 | h2 <;> simp [h1, h2, hseq, Except.isOk, Except.toBool]
      · obtain ⟨h2a, h2b⟩ := not_or.mp h2
        simp [h1, h2a, h2b, Except.isOk, Except.toBool]
  · intro m hm
    unfold cartoonSetup at hm
    cases hsc : sanity_checks (merge_settings default_settings raw) with
    | ok u =>
        simp only [hsc] at hm
        injection hm with h
        exact h.symm
    | error e =>
        simp only [hsc] at hm
        simp at hm

/-- C6 witness: a raw settings object carrying only `frameCount: 3` merges
to a valid movie configuration and construction succeeds, returning the
merged configuration. -/
theorem setup_failfast_witness :
    ¬ badConfig (merge_settings default_settings { frameCount := some 3 }) ∧
    (cartoonSetup { frameCount := some 3 }).isOk = true := by
  have hb : ¬ badConfig (merge_settings default_settings { frameCount := some 3 }) := by
    norm_num [badConfig, merge_settings, default_settings]
    exact ⟨by decide, by decide⟩
  exact ⟨hb, (setup_failfast { frameCount := some 3 }).1.mpr hb⟩

end Cartoon
